import Mathlib

/-!
Verification of the ECC608 controller core (`src/ecc.rs`).

The development shallowly embeds the command-execution engine of the
controller: the retrying send/receive loop `Ecc::send_command_retries`
(lines 170-205), the slot/key configuration read-modify-write codec
(lines 46-110), `Ecc::get_serial` (lines 34-40) and the three-step
`Ecc::sign` sequence (lines 125-138).

External collaborators (the transport, the command codec
`EccResponse::from_bytes`, the `Address` resolver and the SHA-256
digest) live outside `src/`; their observable behaviour is abstracted
as oracle parameters, and the `Address` validation is modelled from the
specification where noted.
-/

/-- Device-reported error code together with its static recoverability
classification (`EccError::is_recoverable` lives in the external command
codec; the classification is abstracted as a stored attribute). -/
structure DeviceError where
  code : Nat
  recoverable : Bool
deriving DecidableEq

/-- Mirror of the Rust `is_recoverable` predicate on device errors. -/
def DeviceError.is_recoverable (e : DeviceError) : Bool :=
  e.recoverable

/-- Decoded device reply: `EccResponse::Data(bytes)` or
`EccResponse::Error(err)` (src/ecc.rs line 198 match). -/
inductive EccResponse
  | Data (bytes : List Nat)
  | Error (err : DeviceError)
deriving DecidableEq

/-- Error type of the crate as observed by the embedded functions:
`Error::timeout()` (line 204), `Error::ecc(err)` (line 201), the
invalid-address rejection raised by the `Address` resolver, and an
abstract constructor for errors produced by collaborators (wake
failures, decode failures). -/
inductive EccError
  | timeout
  | ecc (err : DeviceError)
  | invalidAddress
  | other (tag : Nat)
deriving DecidableEq

/-- Observable transport interactions of one run of
`send_command_retries`: `send_wake` (line 182), the `send_recv_buf`
exchange (line 186) and `send_sleep` (line 196). -/
inductive Event
  | wake
  | sendRecv
  | sleep
deriving DecidableEq

/-- Behaviour of the device/transport on one loop iteration of
`send_command_retries`, abstracting the collaborator calls of lines
182-194: `send_wake` may fail with an error, then `send_recv_buf` may
fail, then `EccResponse::from_bytes` may fail, else a decoded response
is obtained. -/
inductive Attempt
  | wakeFail (e : EccError)
  | xferFail
  | decodeFail (e : EccError)
  | response (r : EccResponse)
deriving DecidableEq

/-- Does this attempt produce a decoded response (successful
`EccResponse::from_bytes`)? -/
def Attempt.isResponse : Attempt → Bool
  | .response _ => true
  | _ => false

/-- Loop body of `Ecc::send_command_retries` (src/ecc.rs lines 177-204),
embedded with explicit fuel: the Rust `for retry in 0..retries` runs the
body with `retry` counting up while `fuel = retries - retry` counts
down; falling out of the loop yields `Err(Error::timeout())`.  The
source's two comparisons of `retry` against `retries` (line 187
`if retry == retries { break }` and the guard `retry < retries` of line
200) are kept verbatim.  The second component collects the transport
events of the run. -/
def sendLoop (oracle : Nat → Attempt) (sleep : Bool) (retries : Nat) :
    Nat → Nat → Except EccError (List Nat) × List Event
  | 0, _ => (Except.error EccError.timeout, [])
  | fuel + 1, retry =>
    match oracle retry with
    | Attempt.wakeFail e => (Except.error e, [Event.wake])
    | Attempt.xferFail =>
      if retry = retries then
        (Except.error EccError.timeout, [Event.wake, Event.sendRecv])
      else
        let rest := sendLoop oracle sleep retries fuel (retry + 1)
        (rest.1, Event.wake :: Event.sendRecv :: rest.2)
    | Attempt.decodeFail e => (Except.error e, [Event.wake, Event.sendRecv])
    | Attempt.response r =>
      let slEvents : List Event := if sleep then [Event.sleep] else []
      match r with
      | EccResponse.Data b =>
        (Except.ok b, [Event.wake, Event.sendRecv] ++ slEvents)
      | EccResponse.Error err =>
        if err.is_recoverable ∧ retry < retries then
          let rest := sendLoop oracle sleep retries fuel (retry + 1)
          (rest.1, [Event.wake, Event.sendRecv] ++ slEvents ++ rest.2)
        else
          (Except.error (EccError.ecc err), [Event.wake, Event.sendRecv] ++ slEvents)

/-- Embedding of `Ecc::send_command_retries(command, sleep, retries)` (src/ecc.rs
lines 170-205), with the per-attempt device behaviour supplied by
`oracle` (the framed command bytes only feed the collaborators, so they
are absorbed into the oracle).  Returns the result together with the
trace of transport events. -/
def Ecc.send_command_retries (oracle : Nat → Attempt) (sleep : Bool)
    (retries : Nat) : Except EccError (List Nat) × List Event :=
  sendLoop oracle sleep retries retries 0

/-- Source constant `MAX_SLOT` (src/ecc.rs line 16). -/
def MAX_SLOT : Nat := 15

/-- Register banks addressed by the configuration accessors: the
slot-config registers and the key-config registers live in distinct
config-zone word ranges. -/
inductive Bank
  | slotConf
  | keyConf
deriving DecidableEq

/-- Resolved device address of one 4-byte configuration register. -/
structure Addr where
  bank : Bank
  index : Nat
deriving DecidableEq

/-- Modelled from the spec: `Address::slot_config(slot)` (crate
`Address` code is not under src/).  Per spec section 4.1 it resolves the
slot-configuration register address for a slot, failing with an
InvalidSlot/InvalidAddress condition when `slot > 15` before any I/O;
per section 3 paired slots share one 4-byte register, so the register
index is `slot / 2`. -/
def Address.slot_config (slot : Nat) : Except EccError Addr :=
  if slot ≤ MAX_SLOT then Except.ok ⟨Bank.slotConf, slot / 2⟩
  else Except.error EccError.invalidAddress

/-- Modelled from the spec: `Address::key_config(slot)` (crate `Address`
code is not under src/), same validation and pairing rule as
`Address::slot_config` but a separate register bank (spec sections 3
and 4.1). -/
def Address.key_config (slot : Nat) : Except EccError Addr :=
  if slot ≤ MAX_SLOT then Except.ok ⟨Bank.keyConf, slot / 2⟩
  else Except.error EccError.invalidAddress

/-- The `bytes` crate's `get_u16_le` on the first two bytes of a
buffer: little-endian 16-bit decode (src/ecc.rs lines 52, 56, 85, 89
read the selected 2-byte half this way). -/
def get_u16_le (l : List Nat) : Nat :=
  l.getD 0 0 + 256 * l.getD 1 0

/-- The `bytes` crate's `put_u16_le`: little-endian 16-bit encode into
two bytes (src/ecc.rs lines 68, 73, 101, 106). -/
def put_u16_le (v : Nat) : List Nat :=
  [v % 256, v / 256 % 256]

/-- Device-side I/O exchanges performed by the configuration accessors:
each `Ecc::read` / `Ecc::write` call is one framed command exchange on
the transport (src/ecc.rs lines 157-164). -/
inductive CfgEvent
  | read (a : Addr)
  | write (a : Addr) (bytes : List Nat)
deriving DecidableEq

/-- Functional update of the device register file at one address. -/
def updateReg (regs : Addr → List Nat) (a : Addr) (b : List Nat) :
    Addr → List Nat :=
  fun x => if x = a then b else regs x

/-- Embedding of `Ecc::get_slot_config(slot)` (src/ecc.rs lines 46-59): resolve the
address, read the 4-byte register (the device read is modelled as
returning the register-file content, as the claims assume successful
reads), `split_at(2)` and decode the half selected by `slot & 1`.
Returns the result and the trace of device exchanges. -/
def Ecc.get_slot_config (regs : Addr → List Nat) (slot : Nat) :
    Except EccError Nat × List CfgEvent :=
  match Address.slot_config slot with
  | Except.error e => (Except.error e, [])
  | Except.ok a =>
    let bytes := regs a
    let s0 := bytes.take 2
    let s1 := bytes.drop 2
    if slot &&& 1 = 0 then (Except.ok (get_u16_le s0), [CfgEvent.read a])
    else (Except.ok (get_u16_le s1), [CfgEvent.read a])

/-- Embedding of `Ecc::set_slot_config(slot, config)` (src/ecc.rs lines 61-77):
resolve the address, read the current 4-byte register, rebuild it with
the half selected by `slot & 1` replaced by the new little-endian value
and the other half copied verbatim, and write the 4 bytes back.  The
`SlotConfig`/`u16` conversions live in the external command codec and
are modelled as the identity on the 16-bit packed value (spec section
3).  Returns the updated register file and the exchange trace. -/
def Ecc.set_slot_config (regs : Addr → List Nat) (slot config : Nat) :
    Except EccError (Addr → List Nat) × List CfgEvent :=
  match Address.slot_config slot with
  | Except.error e => (Except.error e, [])
  | Except.ok a =>
    let bytes := regs a
    let s0 := bytes.take 2
    let s1 := bytes.drop 2
    let new_bytes :=
      if slot &&& 1 = 0 then put_u16_le config ++ s1
      else s0 ++ put_u16_le config
    (Except.ok (updateReg regs a new_bytes),
      [CfgEvent.read a, CfgEvent.write a new_bytes])

/-- Embedding of `Ecc::get_key_config(slot)` (src/ecc.rs lines 79-92): identical
codec logic to `get_slot_config` over the key-config register bank. -/
def Ecc.get_key_config (regs : Addr → List Nat) (slot : Nat) :
    Except EccError Nat × List CfgEvent :=
  match Address.key_config slot with
  | Except.error e => (Except.error e, [])
  | Except.ok a =>
    let bytes := regs a
    let s0 := bytes.take 2
    let s1 := bytes.drop 2
    if slot &&& 1 = 0 then (Except.ok (get_u16_le s0), [CfgEvent.read a])
    else (Except.ok (get_u16_le s1), [CfgEvent.read a])

/-- Embedding of `Ecc::set_key_config(slot, config)` (src/ecc.rs lines 94-110):
identical codec logic to `set_slot_config` over the key-config register
bank. -/
def Ecc.set_key_config (regs : Addr → List Nat) (slot config : Nat) :
    Except EccError (Addr → List Nat) × List CfgEvent :=
  match Address.key_config slot with
  | Except.error e => (Except.error e, [])
  | Except.ok a =>
    let bytes := regs a
    let s0 := bytes.take 2
    let s1 := bytes.drop 2
    let new_bytes :=
      if slot &&& 1 = 0 then put_u16_le config ++ s1
      else s0 ++ put_u16_le config
    (Except.ok (updateReg regs a new_bytes),
      [CfgEvent.read a, CfgEvent.write a new_bytes])

/-- The 2-byte half of a 4-byte register selected by a slot parity:
parity 0 is the low half `[0..2)`, parity 1 the high half `[2..4)`
(spec section 3: even slot occupies the low 2 bytes, odd slot the high
2 bytes). -/
def halfAt (bytes : List Nat) (parity : Nat) : List Nat :=
  if parity = 0 then bytes.take 2 else bytes.drop 2

/-- Extraction step of `Ecc::get_serial` (src/ecc.rs lines 34-40)
applied to the bytes returned by the config-zone read at
`Address::config(0, 0)`: `bytes.slice(0..=3)` followed by
`bytes.slice(8..=12)` into a 9-byte serial. -/
def Ecc.get_serial (bytes : List Nat) : List Nat :=
  bytes.take 4 ++ (bytes.drop 8).take 5

/-- Selector of a volatile on-device buffer (`DataBuffer`, external
crate type; only `MessageDigest` is used by the embedded code). -/
inductive DataBuffer
  | MessageDigest
deriving DecidableEq

/-- Logical commands issued by `Ecc::sign`: `EccCommand::random()`,
`EccCommand::nonce(target, data)`, `EccCommand::sign(source, slot)`
(their wire encodings live in the external command codec). -/
inductive Cmd
  | random
  | nonce (target : DataBuffer) (data : List Nat)
  | sign (source : DataBuffer) (key_slot : Nat)
deriving DecidableEq

/-- One underlying call to `send_command_retries`: the command, the
sleep flag and the retry budget passed to it. -/
structure Exchange where
  cmd : Cmd
  sleep : Bool
  retries : Nat
deriving DecidableEq

/-- Embedding of `Ecc::sign(key_slot, data)` (src/ecc.rs lines 125-138), with the
SHA-256 digest (external collaborator) and the outcome of each
underlying `send_command_retries` call supplied as parameters.  The
three calls are issued in source order with the source's sleep flags
and retry budgets; each `?` aborts the sequence on error.  The second
component records the exchanges actually issued, in order. -/
def Ecc.sign (sha256 : List Nat → List Nat)
    (exec : Exchange → Except EccError (List Nat))
    (key_slot : Nat) (data : List Nat) :
    Except EccError (List Nat) × List Exchange :=
  let e1 : Exchange := ⟨Cmd.random, false, 1⟩
  match exec e1 with
  | Except.error err => (Except.error err, [e1])
  | Except.ok _ =>
    let digest := sha256 data
    let e2 : Exchange := ⟨Cmd.nonce DataBuffer.MessageDigest digest, false, 1⟩
    match exec e2 with
    | Except.error err => (Except.error err, [e1, e2])
    | Except.ok _ =>
      let e3 : Exchange := ⟨Cmd.sign DataBuffer.MessageDigest key_slot, true, 1⟩
      (exec e3, [e1, e2, e3])

/-- A prefix of attempts on which `send_recv_buf` fails contributes a
`wake, sendRecv` block per attempt and the loop keeps going: since the
source's `retry == retries` test (line 187) is false for every loop
index, each transport failure takes the `continue` branch. -/
theorem sendLoop_xfer_prefix (oracle : Nat → Attempt) (sl : Bool) (retries : Nat) :
    ∀ k rest retry, retry + k + rest = retries →
      (∀ i, retry ≤ i → i < retry + k → oracle i = Attempt.xferFail) →
      sendLoop oracle sl retries (k + rest) retry =
        ((sendLoop oracle sl retries rest (retry + k)).1,
          (List.replicate k [Event.wake, Event.sendRecv]).flatten ++
            (sendLoop oracle sl retries rest (retry + k)).2) := by
  intro k
  induction k with
  | zero =>
    intro rest retry _ _
    simp
  | succ m ih =>
    intro rest retry hsum hall
    have ho : oracle retry = Attempt.xferFail :=
      hall retry (Nat.le_refl _) (by omega)
    have hne : ¬retry = retries := by omega
    have hstep : m + 1 + rest = (m + rest) + 1 := by omega
    rw [hstep]
    have hrec := ih rest (retry + 1) (by omega)
      (fun i h1 h2 => hall i (by omega) (by omega))
    have hidx : retry + 1 + m = retry + (m + 1) := by omega
    rw [hidx] at hrec
    simp only [sendLoop, ho, if_neg hne, hrec, List.replicate_succ, List.flatten_cons]
    simp

/-- A run of attempts returning recoverable device errors always takes
the `continue` branch, because the guard `retry < retries` of line 200
holds for every loop index; a `Data` response then returns its
payload.  Each such attempt contributes a `wake, sendRecv` block plus a
`sleep` event when the flag is set (the sleep of line 196 precedes the
response match). -/
theorem sendLoop_recov_then_data (oracle : Nat → Attempt) (sl : Bool)
    (retries : Nat) (bytes : List Nat) :
    ∀ m fuel retry, m < fuel → retry + fuel = retries →
      (∀ i, retry ≤ i → i < retry + m →
        ∃ e, oracle i = Attempt.response (EccResponse.Error e) ∧
          e.recoverable = true) →
      oracle (retry + m) = Attempt.response (EccResponse.Data bytes) →
      sendLoop oracle sl retries fuel retry =
        (Except.ok bytes,
          (List.replicate (m + 1)
            ([Event.wake, Event.sendRecv] ++
              if sl then [Event.sleep] else [])).flatten) := by
  intro m
  induction m with
  | zero =>
    intro fuel retry hm hsum hrec hdata
    obtain ⟨f, rfl⟩ : ∃ f, fuel = f + 1 := ⟨fuel - 1, by omega⟩
    rw [Nat.add_zero] at hdata
    simp [sendLoop, hdata]
  | succ m ih =>
    intro fuel retry hm hsum hrec hdata
    obtain ⟨f, rfl⟩ : ∃ f, fuel = f + 1 := ⟨fuel - 1, by omega⟩
    obtain ⟨e, he, herec⟩ := hrec retry (Nat.le_refl _) (by omega)
    have hguard : e.is_recoverable = true ∧ retry < retries := by
      exact ⟨herec, by omega⟩
    have hrec2 := ih f (retry + 1) (by omega) (by omega)
      (fun i h1 h2 => hrec i (by omega) (by omega))
      (by
        have : retry + 1 + m = retry + (m + 1) := by omega
        rw [this]
        exact hdata)
    simp only [sendLoop, he, if_pos hguard, hrec2]
    rw [List.replicate_succ ([Event.wake, Event.sendRecv] ++
      if sl then [Event.sleep] else []) (m + 1)]
    simp

/-- A `sleep` event occurs in a run only when the sleep flag is set and
some executed attempt produced a decoded response: on the wake-failure,
transport-failure and decode-failure paths the loop reaches no
`send_sleep` call (lines 195-197 run only after a successful
`EccResponse::from_bytes`). -/
theorem sendLoop_sleep_mem (oracle : Nat → Attempt) (sl : Bool) (retries : Nat) :
    ∀ fuel retry, Event.sleep ∈ (sendLoop oracle sl retries fuel retry).2 →
      sl = true ∧ ∃ i, retry ≤ i ∧ i < retry + fuel ∧
        (oracle i).isResponse = true := by
  intro fuel
  induction fuel with
  | zero =>
    intro retry h
    simp [sendLoop] at h
  | succ f ih =>
    intro retry h
    rcases ho : oracle retry with e | _ | e | r
    · rw [sendLoop, ho] at h
      simp at h
    · rw [sendLoop, ho] at h
      by_cases hr : retry = retries
      · rw [if_pos hr] at h
        simp at h
      · rw [if_neg hr] at h
        simp only [List.mem_cons] at h
        rcases h with h | h | h
        · exact absurd h (by simp)
        · exact absurd h (by simp)
        · obtain ⟨hsl, i, h1, h2, h3⟩ := ih (retry + 1) h
          exact ⟨hsl, i, by omega, by omega, h3⟩
    · rw [sendLoop, ho] at h
      simp at h
    · have hresp : (oracle retry).isResponse = true := by
        rw [ho]; rfl
      by_cases hsl : sl = true
      · exact ⟨hsl, retry, Nat.le_refl _, by omega, hresp⟩
      · have hf : sl = false := by simpa using hsl
        subst hf
        rcases hr : r with b | err
        · simp only [sendLoop, ho, hr] at h
          simp at h
        · simp only [sendLoop, ho, hr] at h
          by_cases hg : err.is_recoverable = true ∧ retry < retries
          · rw [if_pos hg] at h
            have hmem : Event.sleep ∈
                (sendLoop oracle false retries f (retry + 1)).2 := by
              simpa using h
            obtain ⟨hs, i, h1, h2, h3⟩ := ih (retry + 1) hmem
            exact ⟨hs, i, by omega, by omega, h3⟩
          · rw [if_neg hg] at h
            simp at h

/-- C1: the claim says that when each of the `N` attempts yields a
recoverable device error (with the transport exchange succeeding each
time), the operation fails with that `DeviceError`, not `Timeout`.  The
code does the opposite: the guard `retry < retries` on line 200 of
src/ecc.rs is true for every index of `for retry in 0..retries`, so the
last recoverable error also takes the `continue` branch and the loop
falls through to `Err(Error::timeout())` (line 204).  This theorem
evaluates the embedded loop at the failing input — retry budget 3,
every attempt a recoverable device error (code 5) — and shows the
result is `Timeout`, never the device error. -/
theorem recoverable_exhaustion_returns_timeout :
    Ecc.send_command_retries
      (fun _ => Attempt.response (EccResponse.Error ⟨5, true⟩)) true 3 =
      (Except.error EccError.timeout,
        [Event.wake, Event.sendRecv, Event.sleep,
          Event.wake, Event.sendRecv, Event.sleep,
          Event.wake, Event.sendRecv, Event.sleep]) := rfl

/-- C2 counterexample: with the sleep flag set, a retry budget of 1 and
the device answering a fatal (non-recoverable) error, the run's trace
contains a `sleep` event even though the decoded response of the
attempt was an `Error`, not `Data` — `send_sleep` (src/ecc.rs line 196)
runs after every successful decode, before the response is matched.
This refutes the claim that no sleep is ever sent after an Error
response. -/
theorem sleep_sent_after_error_response :
    Ecc.send_command_retries
      (fun _ => Attempt.response (EccResponse.Error ⟨7, false⟩)) true 1 =
      (Except.error (EccError.ecc ⟨7, false⟩),
        [Event.wake, Event.sendRecv, Event.sleep]) ∧
    Event.sleep ∈ (Ecc.send_command_retries
      (fun _ => Attempt.response (EccResponse.Error ⟨7, false⟩)) true 1).2 :=
  ⟨rfl, by decide⟩

/-- C2 (amended): during any execution of `send_command_retries`, the
sleep signal is sent only when the sleep flag is set and some attempt's
response bytes decoded successfully into a response — `Data` or
`Error`; in particular no sleep is ever sent after a transport failure
or a decode failure. -/
theorem sleep_only_when_flag_and_decoded (oracle : Nat → Attempt)
    (sl : Bool) (retries : Nat)
    (h : Event.sleep ∈ (Ecc.send_command_retries oracle sl retries).2) :
    sl = true ∧ ∃ i, i < retries ∧ (oracle i).isResponse = true := by
  obtain ⟨hsl, i, h1, h2, h3⟩ :=
    sendLoop_sleep_mem oracle sl retries retries 0 h
  exact ⟨hsl, i, by omega, h3⟩

/-- C2 witness: a concrete run (sleep flag set, one attempt, `Data`
response) whose trace contains a sleep event, fed to the amended
theorem. -/
theorem sleep_only_when_flag_and_decoded_witness :
    Event.sleep ∈ (Ecc.send_command_retries
      (fun _ => Attempt.response (EccResponse.Data [])) true 1).2 ∧
    (true = true ∧ ∃ i, i < 1 ∧
      ((fun _ => Attempt.response (EccResponse.Data [])) i).isResponse = true) :=
  ⟨by decide, sleep_only_when_flag_and_decoded _ _ _ (by decide)⟩

/-- C5: if the transport-level send/receive fails on every one of the
`N` attempts (`N ≥ 1`), the operation fails with `Timeout`, exactly `N`
attempts are made (the trace is exactly `N` blocks of `wake, sendRecv`,
with no sleep), and no `Data` result or `DeviceError` is produced. -/
theorem transport_failure_every_attempt_times_out (oracle : Nat → Attempt)
    (sl : Bool) (N : Nat) (hN : 1 ≤ N)
    (h : ∀ i, i < N → oracle i = Attempt.xferFail) :
    Ecc.send_command_retries oracle sl N =
      (Except.error EccError.timeout,
        (List.replicate N [Event.wake, Event.sendRecv]).flatten) := by
  have hx := sendLoop_xfer_prefix oracle sl N N 0 0 (by omega)
    (fun i h1 h2 => h i (by omega))
  rw [Ecc.send_command_retries]
  simpa [sendLoop] using hx

/-- C5 witness: budget 2, both attempts transport failures. -/
theorem transport_failure_every_attempt_times_out_witness :
    1 ≤ 2 ∧
    Ecc.send_command_retries (fun _ => Attempt.xferFail) false 2 =
      (Except.error EccError.timeout,
        (List.replicate 2 [Event.wake, Event.sendRecv]).flatten) :=
  ⟨by decide, transport_failure_every_attempt_times_out _ false 2 (by decide)
    (fun _ _ => rfl)⟩

/-- C6: if the device returns recoverable errors on attempts `1..N-1`
and a `Data` response on attempt `N`, with `N` at most the retry budget
`R`, the operation succeeds with that payload and exactly `N` attempts
are made (the trace is exactly `N` identical attempt blocks). -/
theorem recoverable_then_data_succeeds (oracle : Nat → Attempt) (sl : Bool)
    (R N : Nat) (bytes : List Nat) (h1 : 1 ≤ N) (h2 : N ≤ R)
    (hrec : ∀ i, i + 1 < N →
      ∃ e, oracle i = Attempt.response (EccResponse.Error e) ∧
        e.recoverable = true)
    (hdata : oracle (N - 1) = Attempt.response (EccResponse.Data bytes)) :
    Ecc.send_command_retries oracle sl R =
      (Except.ok bytes,
        (List.replicate N ([Event.wake, Event.sendRecv] ++
          if sl then [Event.sleep] else [])).flatten) := by
  have hx := sendLoop_recov_then_data oracle sl R bytes (N - 1) R 0
    (by omega) (by omega)
    (fun i hi1 hi2 => hrec i (by omega))
    (by
      have h0 : 0 + (N - 1) = N - 1 := by omega
      rw [h0]
      exact hdata)
  rw [Ecc.send_command_retries]
  have hN1 : N - 1 + 1 = N := by omega
  rw [hN1] at hx
  exact hx

/-- C6 witness: budget 3, a recoverable error on the first attempt and
a `Data` response on the second: success after exactly 2 attempts. -/
theorem recoverable_then_data_succeeds_witness :
    1 ≤ 2 ∧ 2 ≤ 3 ∧
    Ecc.send_command_retries
      (fun i => if i = 0 then Attempt.response (EccResponse.Error ⟨1, true⟩)
        else Attempt.response (EccResponse.Data [9])) true 3 =
      (Except.ok [9],
        (List.replicate 2 ([Event.wake, Event.sendRecv] ++
          if true then [Event.sleep] else [])).flatten) :=
  ⟨by decide, by decide,
    recoverable_then_data_succeeds _ true 3 2 [9] (by decide) (by decide)
      (fun i hi => ⟨⟨1, true⟩, by
        have h0 : i = 0 := by omega
        subst h0
        exact ⟨rfl, rfl⟩⟩)
      rfl⟩

/-- C10: if `send_wake` fails on an attempt (here: attempt `k`, reached
after `k` transport-failure attempts), `send_command_retries` returns
that wake error immediately — the error is not converted to `Timeout`,
no further attempts are consumed, and the failing attempt contributes
only its `wake` event (no send/receive, no sleep): `send_wake()?` on
src/ecc.rs line 182 propagates. -/
theorem wake_failure_propagates_immediately (oracle : Nat → Attempt)
    (sl : Bool) (retries k : Nat) (e : EccError) (hk : k < retries)
    (hpre : ∀ i, i < k → oracle i = Attempt.xferFail)
    (hw : oracle k = Attempt.wakeFail e) :
    Ecc.send_command_retries oracle sl retries =
      (Except.error e,
        (List.replicate k [Event.wake, Event.sendRecv]).flatten ++
          [Event.wake]) := by
  have hx := sendLoop_xfer_prefix oracle sl retries k (retries - k) 0
    (by omega) (fun i h1 h2 => hpre i (by omega))
  obtain ⟨f, hf⟩ : ∃ f, retries - k = f + 1 := ⟨retries - k - 1, by omega⟩
  rw [hf] at hx
  have h0k : 0 + k = k := by omega
  rw [h0k] at hx
  have hkr : k + (f + 1) = retries := by omega
  rw [hkr] at hx
  rw [Ecc.send_command_retries, hx]
  simp [sendLoop, hw]

/-- C10 witness: budget 3, a transport failure on attempt 0 and a wake
failure on attempt 1. -/
theorem wake_failure_propagates_immediately_witness :
    1 < 3 ∧
    Ecc.send_command_retries
      (fun i => if i = 0 then Attempt.xferFail
        else Attempt.wakeFail (EccError.other 0)) true 3 =
      (Except.error (EccError.other 0),
        (List.replicate 1 [Event.wake, Event.sendRecv]).flatten ++
          [Event.wake]) :=
  ⟨by decide,
    wake_failure_propagates_immediately _ true 3 1 (EccError.other 0)
      (by decide)
      (fun i hi => by
        have h0 : i = 0 := by omega
        subst h0
        rfl)
      rfl⟩

/-- A list of length 4 is an explicit four-element list. -/
theorem length_four_explicit (l : List Nat) (h : l.length = 4) :
    ∃ b0 b1 b2 b3, l = [b0, b1, b2, b3] := by
  rcases l with _ | ⟨b0, l⟩
  · simp only [List.length_nil] at h
    omega
  rcases l with _ | ⟨b1, l⟩
  · simp only [List.length_cons, List.length_nil] at h
    omega
  rcases l with _ | ⟨b2, l⟩
  · simp only [List.length_cons, List.length_nil] at h
    omega
  rcases l with _ | ⟨b3, l⟩
  · simp only [List.length_cons, List.length_nil] at h
    omega
  rcases l with _ | ⟨b4, l⟩
  · exact ⟨b0, b1, b2, b3, rfl⟩
  · simp only [List.length_cons] at h
    omega

/-- Bounded arithmetic facts about the slot pairing used by the
configuration register codec: flipping the low bit keeps a slot in
bounds and in the same register, toggles its parity, and `slot & 1`
computes `slot % 2`. -/
theorem slot_pairing_facts :
    ∀ s, s < 16 → (s ^^^ 1) ≤ 15 ∧ (s ^^^ 1) / 2 = s / 2 ∧
      (s ^^^ 1) % 2 = 1 - s % 2 ∧ (s &&& 1 = s % 2) := by
  decide

/-- C3: for every slot in `[0,15]` and 16-bit value `v`, when the
device register reads return what was previously written (the register
file is the device state and both operations address the same 4-byte
register), `set_slot_config(slot, v)` followed by
`get_slot_config(slot)` returns `v`: the write encodes `v`
little-endian into the half selected by the slot's parity and the read
decodes the same half. -/
theorem slot_config_roundtrip (regs : Addr → List Nat) (slot v : Nat)
    (hs : slot ≤ 15) (hv : v < 65536)
    (hlen : ∀ a, (regs a).length = 4) :
    ∃ regs2, (Ecc.set_slot_config regs slot v).1 = Except.ok regs2 ∧
      (Ecc.get_slot_config regs2 slot).1 = Except.ok v := by
  have ha : Address.slot_config slot =
      Except.ok ⟨Bank.slotConf, slot / 2⟩ := by
    simp [Address.slot_config, MAX_SLOT]
    omega
  obtain ⟨b0, b1, b2, b3, hb⟩ :=
    length_four_explicit (regs ⟨Bank.slotConf, slot / 2⟩)
      (hlen ⟨Bank.slotConf, slot / 2⟩)
  have hm : slot &&& 1 = slot % 2 := Nat.and_one_is_mod slot
  by_cases hpar : slot &&& 1 = 0
  · have hq : slot % 2 = 0 := by
      rw [← hm]
      exact hpar
    refine ⟨updateReg regs ⟨Bank.slotConf, slot / 2⟩
      (put_u16_le v ++ [b2, b3]), ?_, ?_⟩
    · simp [Ecc.set_slot_config, ha, hpar, hq, hb]
    · simp [Ecc.get_slot_config, ha, hpar, hq, updateReg, put_u16_le,
        get_u16_le]
      omega
  · have hq : ¬slot % 2 = 0 := by
      rw [← hm]
      exact hpar
    refine ⟨updateReg regs ⟨Bank.slotConf, slot / 2⟩
      ([b0, b1] ++ put_u16_le v), ?_, ?_⟩
    · simp [Ecc.set_slot_config, ha, hpar, hq, hb]
    · simp [Ecc.get_slot_config, ha, hpar, hq, updateReg, put_u16_le,
        get_u16_le]
      omega

/-- C3 witness: slot 3, value `0x1234`, all registers zeroed. -/
theorem slot_config_roundtrip_witness :
    (3 ≤ 15 ∧ 0x1234 < 65536) ∧
    ∃ regs2, (Ecc.set_slot_config (fun _ => [0, 0, 0, 0]) 3 0x1234).1 =
        Except.ok regs2 ∧
      (Ecc.get_slot_config regs2 3).1 = Except.ok 0x1234 :=
  ⟨⟨by decide, by decide⟩,
    slot_config_roundtrip (fun _ => [0, 0, 0, 0]) 3 0x1234 (by decide)
      (by decide) (fun _ => rfl)⟩

/-- C4: for every slot `k` in `[0,15]` and 4-byte register content,
`set_slot_config(k, v)` writes back a 4-byte value whose half belonging
to the paired slot `k ^ 1` (the two resolve to the same register) is
byte-for-byte the half that was read, while the half selected by `k`'s
parity becomes the little-endian encoding of `v`. -/
theorem set_slot_config_preserves_paired_half (regs : Addr → List Nat)
    (slot v : Nat) (hs : slot ≤ 15) (hlen : ∀ a, (regs a).length = 4) :
    ∃ a b, Address.slot_config slot = Except.ok a ∧
      Address.slot_config (slot ^^^ 1) = Except.ok a ∧
      (Ecc.set_slot_config regs slot v).2 =
        [CfgEvent.read a, CfgEvent.write a b] ∧
      b.length = 4 ∧
      halfAt b ((slot ^^^ 1) % 2) = halfAt (regs a) ((slot ^^^ 1) % 2) ∧
      halfAt b (slot % 2) = put_u16_le v := by
  obtain ⟨hx1, hx2, hx3, hx4⟩ := slot_pairing_facts slot (by omega)
  have ha : Address.slot_config slot =
      Except.ok ⟨Bank.slotConf, slot / 2⟩ := by
    simp [Address.slot_config, MAX_SLOT]
    omega
  have ha2 : Address.slot_config (slot ^^^ 1) =
      Except.ok ⟨Bank.slotConf, slot / 2⟩ := by
    simp [Address.slot_config, MAX_SLOT, hx1, hx2]
  obtain ⟨b0, b1, b2, b3, hb⟩ :=
    length_four_explicit (regs ⟨Bank.slotConf, slot / 2⟩)
      (hlen ⟨Bank.slotConf, slot / 2⟩)
  by_cases hpar : slot &&& 1 = 0
  · have hp2 : slot % 2 = 0 := by
      rw [← hx4]
      exact hpar
    have hp3 : (slot ^^^ 1) % 2 = 1 := by omega
    refine ⟨⟨Bank.slotConf, slot / 2⟩, put_u16_le v ++ [b2, b3],
      ha, ha2, ?_, ?_, ?_, ?_⟩
    · simp [Ecc.set_slot_config, ha, hpar, hp2, hb]
    · simp [put_u16_le]
    · simp [hp3, halfAt, put_u16_le, hb]
    · simp [hp2, halfAt, put_u16_le]
  · have hq : ¬slot % 2 = 0 := by
      rw [← hx4]
      exact hpar
    have hp2 : slot % 2 = 1 := by omega
    have hp3 : (slot ^^^ 1) % 2 = 0 := by omega
    refine ⟨⟨Bank.slotConf, slot / 2⟩, [b0, b1] ++ put_u16_le v,
      ha, ha2, ?_, ?_, ?_, ?_⟩
    · simp [Ecc.set_slot_config, ha, hpar, hq, hb]
    · simp [put_u16_le]
    · simp [hp3, halfAt, hb]
    · simp [hp2, halfAt, put_u16_le]

/-- C4 witness: odd slot 5 paired with slot 4, value `0xABCD`, register
content `[1, 2, 3, 4]`. -/
theorem set_slot_config_preserves_paired_half_witness :
    5 ≤ 15 ∧
    (∃ a b, Address.slot_config 5 = Except.ok a ∧
      Address.slot_config (5 ^^^ 1) = Except.ok a ∧
      (Ecc.set_slot_config (fun _ => [1, 2, 3, 4]) 5 0xABCD).2 =
        [CfgEvent.read a, CfgEvent.write a b] ∧
      b.length = 4 ∧
      halfAt b ((5 ^^^ 1) % 2) =
        halfAt ((fun _ => [1, 2, 3, 4]) a) ((5 ^^^ 1) % 2) ∧
      halfAt b (5 % 2) = put_u16_le 0xABCD) :=
  ⟨by decide,
    set_slot_config_preserves_paired_half (fun _ => [1, 2, 3, 4]) 5 0xABCD
      (by decide) (fun _ => rfl)⟩

/-- C9: every slot above 15 is rejected by each of the four
configuration accessors with the InvalidSlot/InvalidAddress condition
and an empty exchange trace — no device exchange (hence no wake, send,
receive or sleep on the transport) happens before the rejection. -/
theorem invalid_slot_rejected_without_io (regs : Addr → List Nat)
    (slot v : Nat) (hs : 15 < slot) :
    Ecc.get_slot_config regs slot = (Except.error EccError.invalidAddress, []) ∧
    Ecc.set_slot_config regs slot v =
      (Except.error EccError.invalidAddress, []) ∧
    Ecc.get_key_config regs slot = (Except.error EccError.invalidAddress, []) ∧
    Ecc.set_key_config regs slot v =
      (Except.error EccError.invalidAddress, []) := by
  have hno : ¬slot ≤ MAX_SLOT := by
    simp [MAX_SLOT]
    omega
  refine ⟨?_, ?_, ?_, ?_⟩ <;>
    simp [Ecc.get_slot_config, Ecc.set_slot_config, Ecc.get_key_config,
      Ecc.set_key_config, Address.slot_config, Address.key_config, hno]

/-- C9 witness: slot 16 on a zeroed register file. -/
theorem invalid_slot_rejected_without_io_witness :
    15 < 16 ∧
    (Ecc.get_slot_config (fun _ => [0, 0, 0, 0]) 16 =
        (Except.error EccError.invalidAddress, []) ∧
      Ecc.set_slot_config (fun _ => [0, 0, 0, 0]) 16 7 =
        (Except.error EccError.invalidAddress, []) ∧
      Ecc.get_key_config (fun _ => [0, 0, 0, 0]) 16 =
        (Except.error EccError.invalidAddress, []) ∧
      Ecc.set_key_config (fun _ => [0, 0, 0, 0]) 16 7 =
        (Except.error EccError.invalidAddress, [])) :=
  ⟨by decide,
    invalid_slot_rejected_without_io (fun _ => [0, 0, 0, 0]) 16 7 (by decide)⟩

/-- C7: `sign(slot, data)` issues exactly three underlying exchanges,
in order — a random command, a nonce command loading the SHA-256 digest
of `data` into the message-digest buffer, and a sign command over that
buffer and slot — with the sleep flag false on the first two and true
on the third and a retry budget of 1 for each; a failure on any step
aborts the whole operation with no further exchanges. -/
theorem sign_three_exchanges (sha256 : List Nat → List Nat)
    (exec : Exchange → Except EccError (List Nat))
    (key_slot : Nat) (data : List Nat) :
    (∀ err, exec ⟨Cmd.random, false, 1⟩ = Except.error err →
      Ecc.sign sha256 exec key_slot data =
        (Except.error err, [⟨Cmd.random, false, 1⟩])) ∧
    (∀ r1 err, exec ⟨Cmd.random, false, 1⟩ = Except.ok r1 →
      exec ⟨Cmd.nonce DataBuffer.MessageDigest (sha256 data), false, 1⟩ =
        Except.error err →
      Ecc.sign sha256 exec key_slot data =
        (Except.error err,
          [⟨Cmd.random, false, 1⟩,
            ⟨Cmd.nonce DataBuffer.MessageDigest (sha256 data), false, 1⟩])) ∧
    (∀ r1 r2, exec ⟨Cmd.random, false, 1⟩ = Except.ok r1 →
      exec ⟨Cmd.nonce DataBuffer.MessageDigest (sha256 data), false, 1⟩ =
        Except.ok r2 →
      Ecc.sign sha256 exec key_slot data =
        (exec ⟨Cmd.sign DataBuffer.MessageDigest key_slot, true, 1⟩,
          [⟨Cmd.random, false, 1⟩,
            ⟨Cmd.nonce DataBuffer.MessageDigest (sha256 data), false, 1⟩,
            ⟨Cmd.sign DataBuffer.MessageDigest key_slot, true, 1⟩])) := by
  refine ⟨?_, ?_, ?_⟩
  · intro err h1
    simp [Ecc.sign, h1]
  · intro r1 err h1 h2
    simp [Ecc.sign, h1, h2]
  · intro r1 r2 h1 h2
    simp [Ecc.sign, h1, h2]

/-- C7 witness: an executor that answers every exchange with empty
data; the whole three-step sequence is issued. -/
theorem sign_three_exchanges_witness :
    Ecc.sign (fun _ => []) (fun _ => Except.ok []) 0 [] =
      (Except.ok [],
        [⟨Cmd.random, false, 1⟩,
          ⟨Cmd.nonce DataBuffer.MessageDigest [], false, 1⟩,
          ⟨Cmd.sign DataBuffer.MessageDigest 0, true, 1⟩]) :=
  (sign_three_exchanges (fun _ => []) (fun _ => Except.ok []) 0 []).2.2
    [] [] rfl rfl

/-- A list with at least 13 elements decomposes into 13 explicit heads
and a tail. -/
theorem length_ge_13_explicit (l : List Nat) (h : 13 ≤ l.length) :
    ∃ b0 b1 b2 b3 b4 b5 b6 b7 b8 b9 b10 b11 b12 t,
      l = b0 :: b1 :: b2 :: b3 :: b4 :: b5 :: b6 :: b7 :: b8 :: b9 ::
        b10 :: b11 :: b12 :: t := by
  rcases l with _ | ⟨b0, l⟩
  · simp only [List.length_nil] at h
    omega
  rcases l with _ | ⟨b1, l⟩
  · simp only [List.length_cons, List.length_nil] at h
    omega
  rcases l with _ | ⟨b2, l⟩
  · simp only [List.length_cons, List.length_nil] at h
    omega
  rcases l with _ | ⟨b3, l⟩
  · simp only [List.length_cons, List.length_nil] at h
    omega
  rcases l with _ | ⟨b4, l⟩
  · simp only [List.length_cons, List.length_nil] at h
    omega
  rcases l with _ | ⟨b5, l⟩
  · simp only [List.length_cons, List.length_nil] at h
    omega
  rcases l with _ | ⟨b6, l⟩
  · simp only [List.length_cons, List.length_nil] at h
    omega
  rcases l with _ | ⟨b7, l⟩
  · simp only [List.length_cons, List.length_nil] at h
    omega
  rcases l with _ | ⟨b8, l⟩
  · simp only [List.length_cons, List.length_nil] at h
    omega
  rcases l with _ | ⟨b9, l⟩
  · simp only [List.length_cons, List.length_nil] at h
    omega
  rcases l with _ | ⟨b10, l⟩
  · simp only [List.length_cons, List.length_nil] at h
    omega
  rcases l with _ | ⟨b11, l⟩
  · simp only [List.length_cons, List.length_nil] at h
    omega
  rcases l with _ | ⟨b12, l⟩
  · simp only [List.length_cons, List.length_nil] at h
    omega
  exact ⟨b0, b1, b2, b3, b4, b5, b6, b7, b8, b9, b10, b11, b12, l, rfl⟩

/-- C8: for every config-zone read window with at least 13 bytes,
`get_serial` returns exactly 9 bytes — bytes `[0..4)` of the window
followed by bytes `[8..13)` — and when the window satisfies the device
contract (`window[0] = 0x01`, `window[1] = 0x23`, `window[12] = 0xEE`,
the serial-number constants of datasheet section 2.2.6), the returned
serial has `byte[0] = 0x01`, `byte[1] = 0x23`, `byte[8] = 0xEE`. -/
theorem get_serial_extracts_nine_bytes (w : List Nat) (hw : 13 ≤ w.length) :
    (Ecc.get_serial w).length = 9 ∧
    (∀ i, i < 4 → (Ecc.get_serial w).getD i 0 = w.getD i 0) ∧
    (∀ i, 4 ≤ i → i < 9 → (Ecc.get_serial w).getD i 0 = w.getD (i + 4) 0) ∧
    (w.getD 0 0 = 0x01 ∧ w.getD 1 0 = 0x23 ∧ w.getD 12 0 = 0xEE →
      (Ecc.get_serial w).getD 0 0 = 0x01 ∧
        (Ecc.get_serial w).getD 1 0 = 0x23 ∧
        (Ecc.get_serial w).getD 8 0 = 0xEE) := by
  obtain ⟨b0, b1, b2, b3, b4, b5, b6, b7, b8, b9, b10, b11, b12, t, ht⟩ :=
    length_ge_13_explicit w hw
  subst ht
  refine ⟨?_, ?_, ?_, ?_⟩
  · simp [Ecc.get_serial]
  · intro i hi
    interval_cases i <;> simp [Ecc.get_serial]
  · intro i hi1 hi2
    interval_cases i <;> simp [Ecc.get_serial]
  · intro ⟨h0, h1, h12⟩
    simp_all [Ecc.get_serial]

/-- C8 witness: a concrete 13-byte window satisfying the device
contract. -/
theorem get_serial_extracts_nine_bytes_witness :
    13 ≤ ([0x01, 0x23, 2, 3, 4, 5, 6, 7, 0xD0, 9, 10, 11,
        0xEE] : List Nat).length ∧
    ((Ecc.get_serial [0x01, 0x23, 2, 3, 4, 5, 6, 7, 0xD0, 9, 10, 11,
        0xEE]).length = 9 ∧
      (∀ i, i < 4 →
        (Ecc.get_serial [0x01, 0x23, 2, 3, 4, 5, 6, 7, 0xD0, 9, 10, 11,
          0xEE]).getD i 0 =
        ([0x01, 0x23, 2, 3, 4, 5, 6, 7, 0xD0, 9, 10, 11,
          0xEE] : List Nat).getD i 0) ∧
      (∀ i, 4 ≤ i → i < 9 →
        (Ecc.get_serial [0x01, 0x23, 2, 3, 4, 5, 6, 7, 0xD0, 9, 10, 11,
          0xEE]).getD i 0 =
        ([0x01, 0x23, 2, 3, 4, 5, 6, 7, 0xD0, 9, 10, 11,
          0xEE] : List Nat).getD (i + 4) 0) ∧
      (([0x01, 0x23, 2, 3, 4, 5, 6, 7, 0xD0, 9, 10, 11,
          0xEE] : List Nat).getD 0 0 = 0x01 ∧
        ([0x01, 0x23, 2, 3, 4, 5, 6, 7, 0xD0, 9, 10, 11,
          0xEE] : List Nat).getD 1 0 = 0x23 ∧
        ([0x01, 0x23, 2, 3, 4, 5, 6, 7, 0xD0, 9, 10, 11,
          0xEE] : List Nat).getD 12 0 = 0xEE →
        (Ecc.get_serial [0x01, 0x23, 2, 3, 4, 5, 6, 7, 0xD0, 9, 10, 11,
          0xEE]).getD 0 0 = 0x01 ∧
          (Ecc.get_serial [0x01, 0x23, 2, 3, 4, 5, 6, 7, 0xD0, 9, 10, 11,
            0xEE]).getD 1 0 = 0x23 ∧
          (Ecc.get_serial [0x01, 0x23, 2, 3, 4, 5, 6, 7, 0xD0, 9, 10, 11,
            0xEE]).getD 8 0 = 0xEE)) :=
  ⟨by decide,
    get_serial_extracts_nine_bytes
      [0x01, 0x23, 2, 3, 4, 5, 6, 7, 0xD0, 9, 10, 11, 0xEE] (by decide)⟩

example :
    Ecc.send_command_retries
      (fun _ => Attempt.response (EccResponse.Error ⟨5, true⟩)) true 1 =
      (Except.error EccError.timeout,
        [Event.wake, Event.sendRecv, Event.sleep]) := by
  rfl

example :
    (Ecc.set_slot_config (fun _ => [9, 9, 9, 9]) 3 0x1234).2 =
      [CfgEvent.read ⟨Bank.slotConf, 1⟩,
        CfgEvent.write ⟨Bank.slotConf, 1⟩ [9, 9, 0x34, 0x12]] := by
  rfl

example : Ecc.get_serial [1, 0x23, 2, 3, 4, 5, 6, 7, 0xEE, 9, 10, 11, 0xEE] =
    [1, 0x23, 2, 3, 0xEE, 9, 10, 11, 0xEE] := by
  rfl
